import Mathlib

/-!
Shallow embedding of the CodeAssist backend (src/backend/main.py and
src/backend/database.py): the relational data model, the database
operations, a model of the uploads filesystem, the HTTP endpoint handlers
and the SSE streaming chat relay.  Timestamps are naturals (UTC instants),
identifiers generated by uuid4 are passed in as explicit string arguments,
and SQL ORDER BY clauses are modelled by sorting on the ordering key.
-/

/-- A row of the users table (database.py, CREATE_TABLES_SQL). -/
structure User where
  id : String
  username : String
  apiKey : String
  createdAt : Nat
deriving Repr, DecidableEq

/-- A row of the sessions table. -/
structure Session where
  id : String
  userId : String
  name : String
  createdAt : Nat
  updatedAt : Nat
deriving Repr, DecidableEq

/-- A row of the messages table. -/
structure Message where
  id : String
  sessionId : String
  role : String
  content : String
  createdAt : Nat
deriving Repr, DecidableEq

/-- A row of the session_files table. -/
structure SessionFileRow where
  id : String
  sessionId : String
  filename : String
  path : String
  uploadedAt : Nat
deriving Repr, DecidableEq

/-- The whole relational store. -/
structure DB where
  users : List User
  sessions : List Session
  messages : List Message
  sessionFiles : List SessionFileRow
deriving Repr, DecidableEq

/-! ## Path model (pathlib PurePosixPath and OS path resolution) -/

/-- Split a character list at every slash, the first step of PurePosixPath
component parsing of a raw path string. -/
def splitSlash : List Char → List (List Char)
  | [] => [[]]
  | c :: rest =>
    match splitSlash rest with
    | [] => [[c]]
    | p :: ps => if c = '/' then [] :: p :: ps else (c :: p) :: ps

/-- The components of a pathlib path built from a string: pieces between
slashes, with empty and single-dot components dropped (PurePosixPath keeps
double-dot components). -/
def parsePath (s : String) : List String :=
  ((splitSlash s.toList).map (fun cs => String.mk cs)).filter
    (fun c => c != "" && c != ".")

/-- Path(s).name: the final component of the parsed path, or the empty
string when there is none. -/
def pathName (s : String) : String :=
  ((parsePath s).getLast?).getD ""

/-- str() of a pathlib path held as its components, joined by slashes. -/
def pathStr : List String → String
  | [] => ""
  | [c] => c
  | c :: rest => c ++ "/" ++ pathStr rest

/-- OS-level resolution of double-dot components against the directory tree
(no symlinks): a double dot removes the preceding component. -/
def normPath (p : List String) : List String :=
  p.foldl (fun acc c => if c = ".." then acc.dropLast else acc ++ [c]) []

/-! ## Filesystem model (the uploads area) -/

/-- A regular file on disk: its raw bytes, and the result of Python
read_text with errors replace, where none models a read that raises
(permission denied and similar).  The decoding of bytes to text is the
platform codec, taken as an oracle value. -/
structure FNode where
  bytes : List Nat
  readText : Option String
deriving Repr, DecidableEq

/-- The uploads area of the filesystem: regular files keyed by resolved
component paths, plus the directories that exist. -/
structure FS where
  files : List (List String × FNode)
  dirs : List (List String)
deriving Repr, DecidableEq

/-- Look up a regular file at an already resolved path. -/
def FS.lookupFile (fs : FS) (p : List String) : Option FNode :=
  (fs.files.find? (fun e => e.1 == p)).map (fun e => e.2)

/-- Whether a directory exists at an already resolved path. -/
def FS.isDir (fs : FS) (p : List String) : Bool :=
  fs.dirs.any (fun d => d == p)

/-- Path.exists(): true when a regular file or a directory is at the
resolved path. -/
def FS.pathExists (fs : FS) (p : List String) : Bool :=
  (fs.lookupFile (normPath p)).isSome || fs.isDir (normPath p)

/-- Path.mkdir(exist_ok=True): succeeds silently when the directory already
exists, fails when the path names an existing regular file or the parent
directory is missing (mkdir is not called with parents=True). -/
def FS.mkdir (fs : FS) (p : List String) : Except String FS :=
  let q := normPath p
  if fs.isDir q then Except.ok fs
  else if (fs.lookupFile q).isSome then Except.error "FileExistsError"
  else if fs.isDir q.dropLast then Except.ok { fs with dirs := fs.dirs ++ [q] }
  else Except.error "FileNotFoundError"

/-- open(path, wb) followed by a full write: fails when the resolved target
is an existing directory, otherwise creates or replaces the file. -/
def FS.writeFile (fs : FS) (p : List String) (node : FNode) : Except String FS :=
  let q := normPath p
  if fs.isDir q then Except.error "IsADirectoryError"
  else Except.ok
    { fs with files := (fs.files.filter (fun e => e.1 != q)) ++ [(q, node)] }

/-- Whether path p lies in directory d (d itself included). -/
def underDir (d p : List String) : Bool :=
  d == p.take d.length

/-- Path.unlink() of a regular file. -/
def FS.unlink (fs : FS) (p : List String) : FS :=
  { fs with files := fs.files.filter (fun e => e.1 != normPath p) }

/-- shutil.rmtree: removes the directory, every directory below it and
every file below it. -/
def FS.rmtree (fs : FS) (p : List String) : FS :=
  let q := normPath p
  { files := fs.files.filter (fun e => !(underDir q e.1)),
    dirs := fs.dirs.filter (fun d => !(underDir q d)) }

/-! ## Database operations (database.py DatabaseManager) -/

/-- SELECT * FROM users WHERE username. -/
def DB.get_user_by_username (db : DB) (username : String) : Option User :=
  db.users.find? (fun u => u.username == username)

/-- SELECT * FROM users WHERE api_key. -/
def DB.get_user_by_api_key (db : DB) (apiKey : String) : Option User :=
  db.users.find? (fun u => u.apiKey == apiKey)

/-- SELECT * FROM users WHERE username AND api_key. -/
def DB.get_user_by_credentials (db : DB) (username apiKey : String) : Option User :=
  db.users.find? (fun u => u.username == username && u.apiKey == apiKey)

/-- INSERT INTO sessions; the fresh uuid and the current time are passed
in explicitly. -/
def DB.create_session (db : DB) (userId name sid : String) (now : Nat) : DB :=
  { db with sessions := db.sessions ++ [⟨sid, userId, name, now, now⟩] }

/-- SELECT * FROM sessions WHERE id. -/
def DB.get_session (db : DB) (sid : String) : Option Session :=
  db.sessions.find? (fun s => s.id == sid)

/-- The descending updated_at ordering used by get_user_sessions. -/
def sessionMoreRecent (a b : Session) : Prop :=
  b.updatedAt ≤ a.updatedAt

instance : DecidableRel sessionMoreRecent :=
  fun a b => inferInstanceAs (Decidable (b.updatedAt ≤ a.updatedAt))

instance : IsTotal Session sessionMoreRecent :=
  ⟨fun a b => Nat.le_total b.updatedAt a.updatedAt⟩

instance : IsTrans Session sessionMoreRecent :=
  ⟨fun _ _ _ h h2 => Nat.le_trans h2 h⟩

/-- SELECT * FROM sessions WHERE user_id ORDER BY updated_at DESC. -/
def DB.get_user_sessions (db : DB) (userId : String) : List Session :=
  (db.sessions.filter (fun s => s.userId == userId)).insertionSort sessionMoreRecent

/-- DELETE FROM sessions WHERE id, with the ON DELETE CASCADE effect on
messages and session_files. -/
def DB.delete_session (db : DB) (sid : String) : DB :=
  { db with
    sessions := db.sessions.filter (fun s => s.id != sid),
    messages := db.messages.filter (fun m => m.sessionId != sid),
    sessionFiles := db.sessionFiles.filter (fun f => f.sessionId != sid) }

/-- UPDATE sessions SET updated_at WHERE id. -/
def DB.touch_session (db : DB) (sid : String) (now : Nat) : DB :=
  let upd := fun s => if s.id = sid then { s with updatedAt := now } else s
  { db with sessions := db.sessions.map upd }

/-- add_message: INSERT INTO messages, then touch_session.  The insert and
the touch each call _now() in the source, so the two instants are separate
arguments. -/
def DB.add_message (db : DB) (sid role content mid : String)
    (tInsert tTouch : Nat) : DB :=
  DB.touch_session
    { db with messages := db.messages ++ [⟨mid, sid, role, content, tInsert⟩] }
    sid tTouch

/-- The ascending created_at ordering used by get_session_messages. -/
def messageOlder (a b : Message) : Prop :=
  a.createdAt ≤ b.createdAt

instance : DecidableRel messageOlder :=
  fun a b => inferInstanceAs (Decidable (a.createdAt ≤ b.createdAt))

instance : IsTotal Message messageOlder :=
  ⟨fun a b => Nat.le_total a.createdAt b.createdAt⟩

instance : IsTrans Message messageOlder :=
  ⟨fun _ _ _ h h2 => Nat.le_trans h h2⟩

/-- SELECT * FROM messages WHERE session_id ORDER BY created_at ASC. -/
def DB.get_session_messages (db : DB) (sid : String) : List Message :=
  (db.messages.filter (fun m => m.sessionId == sid)).insertionSort messageOlder

/-- add_session_file: INSERT ... ON CONFLICT (session_id, filename)
DO UPDATE SET path, uploaded_at.  On conflict the existing row keeps its id
and receives the new path and upload time; otherwise a fresh row with the
supplied id is inserted. -/
def DB.add_session_file (db : DB) (sid fname path fid : String) (now : Nat) : DB :=
  let upd := fun (r : SessionFileRow) =>
    if r.sessionId = sid ∧ r.filename = fname then
      { r with path := path, uploadedAt := now } else r
  if db.sessionFiles.any (fun r => r.sessionId == sid && r.filename == fname) then
    { db with sessionFiles := db.sessionFiles.map upd }
  else
    { db with sessionFiles := db.sessionFiles ++ [⟨fid, sid, fname, path, now⟩] }

/-- The ascending uploaded_at ordering used by get_session_files. -/
def fileOlder (a b : SessionFileRow) : Prop :=
  a.uploadedAt ≤ b.uploadedAt

instance : DecidableRel fileOlder :=
  fun a b => inferInstanceAs (Decidable (a.uploadedAt ≤ b.uploadedAt))

instance : IsTotal SessionFileRow fileOlder :=
  ⟨fun a b => Nat.le_total a.uploadedAt b.uploadedAt⟩

instance : IsTrans SessionFileRow fileOlder :=
  ⟨fun _ _ _ h h2 => Nat.le_trans h h2⟩

/-- SELECT * FROM session_files WHERE session_id ORDER BY uploaded_at ASC. -/
def DB.get_session_files (db : DB) (sid : String) : List SessionFileRow :=
  (db.sessionFiles.filter (fun f => f.sessionId == sid)).insertionSort fileOlder

/-- DELETE FROM session_files WHERE session_id AND filename. -/
def DB.remove_session_file (db : DB) (sid fname : String) : DB :=
  let keep := fun (r : SessionFileRow) => !(r.sessionId == sid && r.filename == fname)
  { db with sessionFiles := db.sessionFiles.filter keep }

/-! ## HTTP layer (main.py) -/

/-- An HTTPException: status code and detail message. -/
structure HError where
  status : Nat
  detail : String
deriving Repr, DecidableEq

/-- verify_user: resolve the API key to a user or raise 401. -/
def verify_user (db : DB) (apiKey : String) : Except HError User :=
  match db.get_user_by_api_key apiKey with
  | none => Except.error ⟨401, "Invalid API key"⟩
  | some u => Except.ok u

/-- The response body of POST /auth/login. -/
structure LoginResp where
  user_id : String
  username : String
  api_key : String
deriving Repr, DecidableEq

/-- POST /auth/login: exact credential lookup or 401. -/
def login (db : DB) (username api_key : String) : Except HError LoginResp :=
  match db.get_user_by_credentials username api_key with
  | none => Except.error ⟨401, "Invalid credentials"⟩
  | some u => Except.ok ⟨u.id, u.username, api_key⟩

/-- GET /sessions. -/
def list_sessions (db : DB) (api_key : String) : Except HError (List Session) :=
  match verify_user db api_key with
  | Except.error e => Except.error e
  | Except.ok user => Except.ok (db.get_user_sessions user.id)

/-- POST /sessions.  The or-default on the optional name treats the empty
string as absent, as the Python or operator does; the default name string,
derived from the wall clock, is an argument. -/
def create_session (db : DB) (api_key : String) (reqName : Option String)
    (defaultName sid : String) (now : Nat) : Except HError (String × String) × DB :=
  match verify_user db api_key with
  | Except.error e => (Except.error e, db)
  | Except.ok user =>
    let name := match reqName with
      | some n => if n = "" then defaultName else n
      | none => defaultName
    (Except.ok (sid, name), db.create_session user.id name sid now)

/-- DELETE /sessions/sid: ownership check, cascade delete, then removal of
the session upload directory when it exists. -/
def delete_session (db : DB) (fs : FS) (sid api_key : String) :
    Except HError String × DB × FS :=
  match verify_user db api_key with
  | Except.error e => (Except.error e, db, fs)
  | Except.ok user =>
    match db.get_session sid with
    | none => (Except.error ⟨404, "Session not found"⟩, db, fs)
    | some s =>
      if s.userId ≠ user.id then (Except.error ⟨404, "Session not found"⟩, db, fs)
      else
        let db1 := db.delete_session sid
        let dirp := ["uploads"] ++ parsePath sid
        let fs1 := if fs.pathExists dirp then fs.rmtree dirp else fs
        (Except.ok "Session deleted", db1, fs1)

/-- GET /sessions/sid/messages. -/
def get_messages (db : DB) (sid api_key : String) : Except HError (List Message) :=
  match verify_user db api_key with
  | Except.error e => Except.error e
  | Except.ok user =>
    match db.get_session sid with
    | none => Except.error ⟨404, "Session not found"⟩
    | some s =>
      if s.userId ≠ user.id then Except.error ⟨404, "Session not found"⟩
      else Except.ok (db.get_session_messages sid)

/-- The response body of POST /sessions/sid/upload. -/
structure UploadResp where
  filename : String
  size : Nat
  message : String
deriving Repr, DecidableEq

/-- POST /sessions/sid/upload: ownership check, mkdir of the session
directory, basename sanitization of the client filename, write of the
uploaded bytes, and the database upsert of the file record.  textOracle is
what the platform codec would later yield for the written bytes. -/
def upload_file (db : DB) (fs : FS) (sid api_key fname : String)
    (content : List Nat) (textOracle : Option String) (fid : String) (now : Nat) :
    Except HError UploadResp × DB × FS :=
  match verify_user db api_key with
  | Except.error e => (Except.error e, db, fs)
  | Except.ok user =>
    match db.get_session sid with
    | none => (Except.error ⟨404, "Session not found"⟩, db, fs)
    | some s =>
      if s.userId ≠ user.id then (Except.error ⟨404, "Session not found"⟩, db, fs)
      else
        let sessionDir := ["uploads"] ++ parsePath sid
        match fs.mkdir sessionDir with
        | Except.error msg => (Except.error ⟨500, msg⟩, db, fs)
        | Except.ok fs1 =>
          let safeName := pathName fname
          let filePath := sessionDir ++ parsePath safeName
          match fs1.writeFile filePath ⟨content, textOracle⟩ with
          | Except.error msg => (Except.error ⟨500, msg⟩, db, fs1)
          | Except.ok fs2 =>
            let db1 := db.add_session_file sid safeName (pathStr filePath) fid now
            (Except.ok ⟨safeName, content.length, "File uploaded successfully"⟩, db1, fs2)

/-- GET /sessions/sid/files. -/
def list_session_files (db : DB) (sid api_key : String) :
    Except HError (List SessionFileRow) :=
  match verify_user db api_key with
  | Except.error e => Except.error e
  | Except.ok user =>
    match db.get_session sid with
    | none => Except.error ⟨404, "Session not found"⟩
    | some s =>
      if s.userId ≠ user.id then Except.error ⟨404, "Session not found"⟩
      else Except.ok (db.get_session_files sid)

/-- DELETE /sessions/sid/files/fname: ownership check, unlink of the
on-disk file when present (unlink of a directory raises), then removal of
the database record. -/
def delete_file (db : DB) (fs : FS) (sid fname api_key : String) :
    Except HError String × DB × FS :=
  match verify_user db api_key with
  | Except.error e => (Except.error e, db, fs)
  | Except.ok user =>
    match db.get_session sid with
    | none => (Except.error ⟨404, "Session not found"⟩, db, fs)
    | some s =>
      if s.userId ≠ user.id then (Except.error ⟨404, "Session not found"⟩, db, fs)
      else
        let filePath := ["uploads"] ++ parsePath sid ++ parsePath fname
        if fs.pathExists filePath then
          if fs.isDir (normPath filePath) then
            (Except.error ⟨500, "IsADirectoryError"⟩, db, fs)
          else
            (Except.ok "File removed", db.remove_session_file sid fname, fs.unlink filePath)
        else
          (Except.ok "File removed", db.remove_session_file sid fname, fs)

/-! ## Streaming chat relay (main.py chat_stream) -/

/-- The request body of POST /chat/stream. -/
structure ChatRequest where
  session_id : String
  message : String
  api_key : String
deriving Repr, DecidableEq

/-- One SSE frame emitted by the stream. -/
inductive Event where
  | token (content : String)
  | done (content : String)
  | error (content : String)
deriving Repr, DecidableEq

/-- One observable step of the generator coroutine: emitting an SSE frame,
or persisting a message row for the session. -/
inductive Step where
  | emit (e : Event)
  | persist (role : String) (content : String)
deriving Repr, DecidableEq

/-- Modelled from the spec: CodeAssistAgent.stream_response lives in
agent.py, which is not part of this codebase; the spec describes the agent
as an external collaborator exposing an asynchronous token-producing
operation given message, history, file context and username.  Its behaviour
on one invocation is therefore an input: either it yields its chunks and
completes, or it yields some chunks and then raises an exception with the
given message. -/
inductive AgentBeh where
  | success (chunks : List String)
  | failure (chunks : List String) (msg : String)
deriving Repr, DecidableEq

/-- The label line prepended for each file included in the context blob. -/
def fileLabel (fname : String) : String :=
  "\n\n--- File: " ++ fname ++ " ---\n"

/-- The file-context assembly loop of chat_stream: for each session file,
when the path exists and the size is under 500000 bytes the label is
appended and then the text read; a read that raises is swallowed after the
label was already appended, and a missing or oversized file is skipped. -/
def buildContext (fs : FS) (files : List SessionFileRow) : String :=
  files.foldl (fun ctx f =>
    match fs.lookupFile (normPath (parsePath f.path)) with
    | none => ctx
    | some node =>
      if node.bytes.length < 500000 then
        match node.readText with
        | some txt => ctx ++ fileLabel f.filename ++ txt
        | none => ctx ++ fileLabel f.filename
      else ctx) ""

/-- The token loop of the generator: accumulate each chunk into the running
full response and emit a token frame for it. -/
def generateLoop (full : String) (chunks : List String) : String × List Step :=
  match chunks with
  | [] => (full, [])
  | c :: rest =>
    let r := generateLoop (full ++ c) rest
    (r.1, Step.emit (Event.token c) :: r.2)

/-- The generator body: on success, stream all tokens, persist the full
assistant response, then emit the done frame; on an exception, emit the
error frame with the exception message and stop. -/
def generate (beh : AgentBeh) : List Step :=
  match beh with
  | AgentBeh.success chunks =>
    let r := generateLoop "" chunks
    r.2 ++ [Step.persist "assistant" r.1, Step.emit (Event.done r.1)]
  | AgentBeh.failure chunks msg =>
    let r := generateLoop "" chunks
    r.2 ++ [Step.emit (Event.error msg)]

/-- Apply the persist steps of a generator trace to the database, in trace
order, using the supplied fresh message id and instants. -/
def applyPersists (db : DB) (sid : String) (steps : List Step)
    (mid : String) (tInsert tTouch : Nat) : DB :=
  steps.foldl (fun acc st =>
    match st with
    | Step.persist role content => acc.add_message sid role content mid tInsert tTouch
    | Step.emit _ => acc) db

/-- What a chat stream request produces: an HTTP error before the stream
starts (the state is unchanged and carried for reference), or a stream. -/
structure StreamData where
  history : List Message
  fileContext : String
  steps : List Step
  dbStart : DB
  dbFinal : DB
deriving Repr, DecidableEq

/-- The outcome of POST /chat/stream. -/
inductive ChatOutcome where
  | httpError (e : HError) (db : DB) (fs : FS)
  | stream (d : StreamData)
deriving Repr, DecidableEq

/-- POST /chat/stream: authorize, load history and files, assemble the
file context, persist the incoming user message, then run the generator.
dbStart is the state after the user message persist and before streaming;
dbFinal additionally applies the generator persist steps. -/
def chat_stream (db : DB) (fs : FS) (req : ChatRequest) (beh : AgentBeh)
    (midUser midAssistant : String) (tU tU2 tA tA2 : Nat) : ChatOutcome :=
  match verify_user db req.api_key with
  | Except.error e => ChatOutcome.httpError e db fs
  | Except.ok user =>
    match db.get_session req.session_id with
    | none => ChatOutcome.httpError ⟨404, "Session not found"⟩ db fs
    | some s =>
      if s.userId ≠ user.id then ChatOutcome.httpError ⟨404, "Session not found"⟩ db fs
      else
        let history := db.get_session_messages req.session_id
        let files := db.get_session_files req.session_id
        let fileContext := buildContext fs files
        let db1 := db.add_message req.session_id "user" req.message midUser tU tU2
        let steps := generate beh
        let db2 := applyPersists db1 req.session_id steps midAssistant tA tA2
        ChatOutcome.stream ⟨history, fileContext, steps, db1, db2⟩

/-- The SSE frames of a generator trace, in emission order. -/
def sseEvents (steps : List Step) : List Event :=
  steps.filterMap (fun st =>
    match st with
    | Step.emit e => some e
    | Step.persist _ _ => none)

/-- The role and content pairs persisted by a generator trace, in order. -/
def persistedPairs (steps : List Step) : List (String × String) :=
  steps.filterMap (fun st =>
    match st with
    | Step.persist r c => some (r, c)
    | Step.emit _ => none)

/-! ## General helper lemmas -/

theorem string_foldl_append (l : List String) (s : String) :
    l.foldl (fun a b => a ++ b) s = s ++ l.foldl (fun a b => a ++ b) "" := by
  induction l generalizing s with
  | nil => simp
  | cons c rest ih =>
    simp only [List.foldl_cons, String.empty_append]
    rw [ih (s ++ c), ih c, String.append_assoc]

theorem string_join_cons (c : String) (l : List String) :
    String.join (c :: l) = c ++ String.join l := by
  show (c :: l).foldl (fun a b => a ++ b) "" = c ++ l.foldl (fun a b => a ++ b) ""
  simp only [List.foldl_cons, String.empty_append]
  rw [string_foldl_append l c]

theorem generateLoop_eq (full : String) (chunks : List String) :
    generateLoop full chunks =
      (full ++ String.join chunks, chunks.map (fun c => Step.emit (Event.token c))) := by
  induction chunks generalizing full with
  | nil => simp [generateLoop, String.join]
  | cons c rest ih =>
    simp only [generateLoop, ih, List.map_cons, string_join_cons, String.append_assoc]

theorem sseEvents_emits_append (evs : List Event) (rest : List Step) :
    sseEvents (evs.map Step.emit ++ rest) = evs ++ sseEvents rest := by
  induction evs with
  | nil => simp
  | cons e t ih =>
    show e :: sseEvents (t.map Step.emit ++ rest) = (e :: t) ++ sseEvents rest
    rw [ih, List.cons_append]

theorem persistedPairs_emits_append (evs : List Event) (rest : List Step) :
    persistedPairs (evs.map Step.emit ++ rest) = persistedPairs rest := by
  induction evs with
  | nil => simp
  | cons e t ih =>
    show persistedPairs (t.map Step.emit ++ rest) = persistedPairs rest
    exact ih

theorem applyPersists_emits_append (db : DB) (sid : String) (evs : List Event)
    (rest : List Step) (mid : String) (t1 t2 : Nat) :
    applyPersists db sid (evs.map Step.emit ++ rest) mid t1 t2 =
      applyPersists db sid rest mid t1 t2 := by
  induction evs with
  | nil => simp
  | cons e t ih =>
    show applyPersists db sid (t.map Step.emit ++ rest) mid t1 t2 =
      applyPersists db sid rest mid t1 t2
    exact ih

/-! ## Concrete fixtures used by the witnesses -/

def user0 : User := ⟨"u1", "alice", "key1", 0⟩

def user1 : User := ⟨"u2", "bob", "key2", 0⟩

def sess0 : Session := ⟨"s1", "u1", "A", 0, 0⟩

def sess1 : Session := ⟨"s2", "u2", "B", 0, 0⟩

def db0 : DB := ⟨[user0], [sess0], [], []⟩

def db1 : DB := ⟨[user0, user1], [sess0, sess1], [], []⟩

def fs0 : FS := ⟨[], [["uploads"]]⟩

def req0 : ChatRequest := ⟨"s1", "hello", "key1"⟩

/-! ## C8: login 'iff exact credential match' -/

/-- C8: login succeeds, returning the user's id, username and api_key, iff
the submitted pair exactly equals a stored user's pair; any other pair,
including one differing in a single character of either field, yields the
401 invalid-credentials response. -/
theorem login_exact_match (db : DB) (username apiKey : String) :
    ((∃ r, login db username apiKey = Except.ok r) ↔
      ∃ u ∈ db.users, u.username = username ∧ u.apiKey = apiKey) ∧
    (∀ r, login db username apiKey = Except.ok r →
      ∃ u ∈ db.users, u.username = username ∧ u.apiKey = apiKey ∧
        r = ⟨u.id, u.username, apiKey⟩) ∧
    ((¬ ∃ u ∈ db.users, u.username = username ∧ u.apiKey = apiKey) →
      login db username apiKey = Except.error ⟨401, "Invalid credentials"⟩) := by
  cases hfind : db.users.find? (fun u => u.username == username && u.apiKey == apiKey) with
  | none =>
    have hnone : ∀ u ∈ db.users, ¬(u.username = username ∧ u.apiKey = apiKey) := by
      intro u hu hc
      have := List.find?_eq_none.mp hfind u hu
      simp [hc.1, hc.2] at this
    refine ⟨⟨?_, ?_⟩, ?_, ?_⟩
    · rintro ⟨r, hr⟩
      simp [login, DB.get_user_by_credentials, hfind] at hr
    · rintro ⟨u, hu, h1, h2⟩
      exact absurd ⟨h1, h2⟩ (hnone u hu)
    · intro r hr
      simp [login, DB.get_user_by_credentials, hfind] at hr
    · intro _
      simp [login, DB.get_user_by_credentials, hfind]
  | some u =>
    have hmem : u ∈ db.users := List.mem_of_find?_eq_some hfind
    have hpred : u.username = username ∧ u.apiKey = apiKey := by
      have := List.find?_some hfind
      simpa using this
    refine ⟨⟨?_, ?_⟩, ?_, ?_⟩
    · intro _
      exact ⟨u, hmem, hpred⟩
    · intro _
      exact ⟨⟨u.id, u.username, apiKey⟩, by simp [login, DB.get_user_by_credentials, hfind]⟩
    · intro r hr
      simp [login, DB.get_user_by_credentials, hfind] at hr
      exact ⟨u, hmem, hpred.1, hpred.2, hr.symm⟩
    · intro hne
      exact absurd ⟨u, hmem, hpred⟩ hne

/-- C8 witness: in the concrete store, a single-character mutation of the
api key is rejected with the 401 response. -/
theorem login_exact_match_witness :
    login db1 "alice" "key2" = Except.error ⟨401, "Invalid credentials"⟩ :=
  (login_exact_match db1 "alice" "key2").2.2 (by decide)

/-! ## C2: uniform not-found on absent and foreign sessions -/

/-- C2: for every session-scoped endpoint and every request whose API key
resolves to a user, an absent session and a session owned by another user
produce the identical 404 not-found response, with no distinct
permission-denied response. -/
theorem session_scoped_uniform_not_found (db : DB) (fs : FS) (sid key : String)
    (u : User) (fname : String) (content : List Nat) (textOracle : Option String)
    (fid msg midU midA : String) (now tU tU2 tA tA2 : Nat) (beh : AgentBeh)
    (hu : db.get_user_by_api_key key = some u)
    (hs : db.get_session sid = none ∨
      ∃ s, db.get_session sid = some s ∧ s.userId ≠ u.id) :
    delete_session db fs sid key = (Except.error ⟨404, "Session not found"⟩, db, fs) ∧
    get_messages db sid key = Except.error ⟨404, "Session not found"⟩ ∧
    upload_file db fs sid key fname content textOracle fid now =
      (Except.error ⟨404, "Session not found"⟩, db, fs) ∧
    list_session_files db sid key = Except.error ⟨404, "Session not found"⟩ ∧
    delete_file db fs sid fname key = (Except.error ⟨404, "Session not found"⟩, db, fs) ∧
    chat_stream db fs ⟨sid, msg, key⟩ beh midU midA tU tU2 tA tA2 =
      ChatOutcome.httpError ⟨404, "Session not found"⟩ db fs := by
  have hv : verify_user db key = Except.ok u := by
    simp [verify_user, hu]
  rcases hs with hnone | ⟨s, hsome, hne⟩
  · exact ⟨by simp [delete_session, hv, hnone],
      by simp [get_messages, hv, hnone],
      by simp [upload_file, hv, hnone],
      by simp [list_session_files, hv, hnone],
      by simp [delete_file, hv, hnone],
      by simp [chat_stream, hv, hnone]⟩
  · exact ⟨by simp [delete_session, hv, hsome, hne],
      by simp [get_messages, hv, hsome, hne],
      by simp [upload_file, hv, hsome, hne],
      by simp [list_session_files, hv, hsome, hne],
      by simp [delete_file, hv, hsome, hne],
      by simp [chat_stream, hv, hsome, hne]⟩

/-- C2 witness: alice's key against bob's session s2 yields the 404
response on all six endpoints. -/
theorem session_scoped_uniform_not_found_witness :
    delete_session db1 fs0 "s2" "key1" = (Except.error ⟨404, "Session not found"⟩, db1, fs0) ∧
    get_messages db1 "s2" "key1" = Except.error ⟨404, "Session not found"⟩ ∧
    upload_file db1 fs0 "s2" "key1" "a.txt" [1] none "f1" 9 =
      (Except.error ⟨404, "Session not found"⟩, db1, fs0) ∧
    list_session_files db1 "s2" "key1" = Except.error ⟨404, "Session not found"⟩ ∧
    delete_file db1 fs0 "s2" "a.txt" "key1" = (Except.error ⟨404, "Session not found"⟩, db1, fs0) ∧
    chat_stream db1 fs0 ⟨"s2", "hi", "key1"⟩ (AgentBeh.success []) "m1" "m2" 1 2 3 4 =
      ChatOutcome.httpError ⟨404, "Session not found"⟩ db1 fs0 :=
  session_scoped_uniform_not_found db1 fs0 "s2" "key1" user0 "a.txt" [1] none
    "f1" "hi" "m1" "m2" 9 1 2 3 4 (AgentBeh.success []) (by decide)
    (Or.inr ⟨sess1, by decide, by decide⟩)

/-! ## C10: authentication and ownership checks precede any write -/

/-- C10: a request to any write-capable endpoint that is answered 401 or
404 leaves the database and the uploads area exactly as they were; the
read-only endpoints return no state at all.  For upload_file the status
guard matters: a 500 from a failed write can leave a freshly created
session directory behind, but a 401 or 404 cannot. -/
theorem auth_failures_leave_state_unchanged (db : DB) (fs : FS)
    (sid key fname name fid midU midA : String) (reqName : Option String)
    (content : List Nat) (textOracle : Option String) (req : ChatRequest)
    (beh : AgentBeh) (now tU tU2 tA tA2 : Nat) :
    (∀ e db2, create_session db key reqName name sid now = (Except.error e, db2) →
      db2 = db) ∧
    (∀ e db2 fs2, delete_session db fs sid key = (Except.error e, db2, fs2) →
      db2 = db ∧ fs2 = fs) ∧
    (∀ e db2 fs2, upload_file db fs sid key fname content textOracle fid now =
        (Except.error e, db2, fs2) → e.status = 401 ∨ e.status = 404 →
      db2 = db ∧ fs2 = fs) ∧
    (∀ e db2 fs2, delete_file db fs sid fname key = (Except.error e, db2, fs2) →
      db2 = db ∧ fs2 = fs) ∧
    (∀ e db2 fs2, chat_stream db fs req beh midU midA tU tU2 tA tA2 =
        ChatOutcome.httpError e db2 fs2 →
      db2 = db ∧ fs2 = fs) := by
  refine ⟨?_, ?_, ?_, ?_, ?_⟩
  · intro e db2 heq
    simp only [create_session] at heq
    split at heq
    · simp at heq
      obtain ⟨h1, h2⟩ := heq
      subst h2
      rfl
    · simp at heq
  · intro e db2 fs2 heq
    simp only [delete_session] at heq
    split at heq
    · simp at heq
      obtain ⟨h1, h2, h3⟩ := heq
      subst h2; subst h3
      exact ⟨rfl, rfl⟩
    · split at heq
      · simp at heq
        obtain ⟨h1, h2, h3⟩ := heq
        subst h2; subst h3
        exact ⟨rfl, rfl⟩
      · split at heq
        · simp at heq
          obtain ⟨h1, h2, h3⟩ := heq
          subst h2; subst h3
          exact ⟨rfl, rfl⟩
        · simp at heq
  · intro e db2 fs2 heq hstat
    simp only [upload_file] at heq
    split at heq
    · simp at heq
      obtain ⟨h1, h2, h3⟩ := heq
      subst h2; subst h3
      exact ⟨rfl, rfl⟩
    · split at heq
      · simp at heq
        obtain ⟨h1, h2, h3⟩ := heq
        subst h2; subst h3
        exact ⟨rfl, rfl⟩
      · split at heq
        · simp at heq
          obtain ⟨h1, h2, h3⟩ := heq
          subst h2; subst h3
          exact ⟨rfl, rfl⟩
        · split at heq
          · simp at heq
            obtain ⟨h1, h2, h3⟩ := heq
            subst h1
            rcases hstat with h | h <;> simp at h
          · split at heq
            · simp at heq
              obtain ⟨h1, h2, h3⟩ := heq
              subst h1
              rcases hstat with h | h <;> simp at h
            · simp at heq
  · intro e db2 fs2 heq
    simp only [delete_file] at heq
    split at heq
    · simp at heq
      obtain ⟨h1, h2, h3⟩ := heq
      subst h2; subst h3
      exact ⟨rfl, rfl⟩
    · split at heq
      · simp at heq
        obtain ⟨h1, h2, h3⟩ := heq
        subst h2; subst h3
        exact ⟨rfl, rfl⟩
      · split at heq
        · simp at heq
          obtain ⟨h1, h2, h3⟩ := heq
          subst h2; subst h3
          exact ⟨rfl, rfl⟩
        · split at heq
          · split at heq
            · simp at heq
              obtain ⟨h1, h2, h3⟩ := heq
              subst h2; subst h3
              exact ⟨rfl, rfl⟩
            · simp at heq
          · simp at heq
  · intro e db2 fs2 heq
    simp only [chat_stream] at heq
    split at heq
    · simp at heq
      obtain ⟨h1, h2, h3⟩ := heq
      subst h2; subst h3
      exact ⟨rfl, rfl⟩
    · split at heq
      · simp at heq
        obtain ⟨h1, h2, h3⟩ := heq
        subst h2; subst h3
        exact ⟨rfl, rfl⟩
      · split at heq
        · simp at heq
          obtain ⟨h1, h2, h3⟩ := heq
          subst h2; subst h3
          exact ⟨rfl, rfl⟩
        · simp at heq

/-- C10 witness: an invalid key on upload leaves the concrete store and
filesystem untouched. -/
theorem auth_failures_leave_state_unchanged_witness :
    (upload_file db0 fs0 "s1" "badkey" "a.txt" [1] none "f1" 9).2.1 = db0 ∧
    (upload_file db0 fs0 "s1" "badkey" "a.txt" [1] none "f1" 9).2.2 = fs0 :=
  (auth_failures_leave_state_unchanged db0 fs0 "s1" "badkey" "a.txt" "n" "f1"
      "m1" "m2" none [1] none req0 (AgentBeh.success []) 9 1 2 3 4).2.2.1
    ⟨401, "Invalid API key"⟩
    (upload_file db0 fs0 "s1" "badkey" "a.txt" [1] none "f1" 9).2.1
    (upload_file db0 fs0 "s1" "badkey" "a.txt" [1] none "f1" 9).2.2
    rfl (Or.inl rfl)

/-! ## Chat stream claims -/

theorem chat_stream_stream_inv (db : DB) (fs : FS) (req : ChatRequest)
    (beh : AgentBeh) (midU midA : String) (tU tU2 tA tA2 : Nat) (d : StreamData)
    (h : chat_stream db fs req beh midU midA tU tU2 tA tA2 = ChatOutcome.stream d) :
    d.history = db.get_session_messages req.session_id ∧
    d.fileContext = buildContext fs (db.get_session_files req.session_id) ∧
    d.steps = generate beh ∧
    d.dbStart = db.add_message req.session_id "user" req.message midU tU tU2 ∧
    d.dbFinal = applyPersists d.dbStart req.session_id (generate beh) midA tA tA2 := by
  simp only [chat_stream] at h
  split at h
  · simp at h
  · split at h
    · simp at h
    · split at h
      · simp at h
      · simp at h
        subst h
        exact ⟨rfl, rfl, rfl, rfl, rfl⟩

theorem generate_success_eq (chunks : List String) :
    generate (AgentBeh.success chunks) =
      chunks.map (fun c => Step.emit (Event.token c)) ++
        [Step.persist "assistant" (String.join chunks),
         Step.emit (Event.done (String.join chunks))] := by
  simp [generate, generateLoop_eq]

theorem generate_failure_eq (chunks : List String) (msg : String) :
    generate (AgentBeh.failure chunks msg) =
      chunks.map (fun c => Step.emit (Event.token c)) ++
        [Step.emit (Event.error msg)] := by
  simp [generate, generateLoop_eq]

theorem token_emits_as_map (chunks : List String) :
    chunks.map (fun c => Step.emit (Event.token c)) =
      (chunks.map Event.token).map Step.emit := by
  rw [List.map_map]
  rfl

/-- C1: for a successful chat-stream request (the request was authorized so
a stream started, and the agent completed without exception) the SSE frames
are token events followed by exactly one done event whose content is the
concatenation, in emission order, of all token contents, and exactly one
new assistant message with that content is persisted, the persist step
preceding the done frame in the trace. -/
theorem chat_stream_success_shape (db : DB) (fs : FS) (req : ChatRequest)
    (chunks : List String) (midU midA : String) (tU tU2 tA tA2 : Nat)
    (d : StreamData)
    (h : chat_stream db fs req (AgentBeh.success chunks) midU midA tU tU2 tA tA2 =
      ChatOutcome.stream d) :
    d.steps = chunks.map (fun c => Step.emit (Event.token c)) ++
      [Step.persist "assistant" (String.join chunks),
       Step.emit (Event.done (String.join chunks))] ∧
    sseEvents d.steps = chunks.map Event.token ++ [Event.done (String.join chunks)] ∧
    persistedPairs d.steps = [("assistant", String.join chunks)] ∧
    d.dbFinal = d.dbStart.add_message req.session_id "assistant"
      (String.join chunks) midA tA tA2 ∧
    d.dbFinal.messages = d.dbStart.messages ++
      [⟨midA, req.session_id, "assistant", String.join chunks, tA⟩] := by
  obtain ⟨_, _, hsteps, _, hfin⟩ := chat_stream_stream_inv db fs req
    (AgentBeh.success chunks) midU midA tU tU2 tA tA2 d h
  have htrace : d.steps = chunks.map (fun c => Step.emit (Event.token c)) ++
      [Step.persist "assistant" (String.join chunks),
       Step.emit (Event.done (String.join chunks))] := by
    rw [hsteps, generate_success_eq]
  refine ⟨htrace, ?_, ?_, ?_, ?_⟩
  · rw [htrace, token_emits_as_map, sseEvents_emits_append]
    rfl
  · rw [htrace, token_emits_as_map, persistedPairs_emits_append]
    rfl
  · rw [hfin, generate_success_eq, token_emits_as_map, applyPersists_emits_append]
    rfl
  · rw [hfin, generate_success_eq, token_emits_as_map, applyPersists_emits_append]
    show (DB.add_message _ _ "assistant" _ midA tA tA2).messages = _
    simp [DB.add_message, DB.touch_session]

/-- The outcome of the concrete successful chat stream used as witness. -/
def streamData0 : StreamData :=
  match chat_stream db0 fs0 req0 (AgentBeh.success ["Hel", "lo"]) "m1" "m2" 10 11 12 13 with
  | ChatOutcome.stream d => d
  | ChatOutcome.httpError _ _ _ => ⟨[], "", [], db0, db0⟩

/-- C1 witness: the concrete stream for chunks Hel and lo. -/
theorem chat_stream_success_shape_witness :
    streamData0.steps = (["Hel", "lo"].map (fun c => Step.emit (Event.token c))) ++
      [Step.persist "assistant" (String.join ["Hel", "lo"]),
       Step.emit (Event.done (String.join ["Hel", "lo"]))] ∧
    sseEvents streamData0.steps =
      (["Hel", "lo"].map Event.token) ++ [Event.done (String.join ["Hel", "lo"])] ∧
    persistedPairs streamData0.steps = [("assistant", String.join ["Hel", "lo"])] ∧
    streamData0.dbFinal = streamData0.dbStart.add_message "s1" "assistant"
      (String.join ["Hel", "lo"]) "m2" 12 13 ∧
    streamData0.dbFinal.messages = streamData0.dbStart.messages ++
      [⟨"m2", "s1", "assistant", String.join ["Hel", "lo"], 12⟩] :=
  chat_stream_success_shape db0 fs0 req0 ["Hel", "lo"] "m1" "m2" 10 11 12 13
    streamData0 rfl

/-- Whether an SSE frame is an error frame. -/
def Event.isError : Event → Bool
  | Event.error _ => true
  | _ => false

theorem countP_isError_tokens (chunks : List String) :
    (chunks.map Event.token).countP Event.isError = 0 := by
  induction chunks with
  | nil => rfl
  | cons c rest ih => simp [List.countP_cons, Event.isError, ih]

/-- C6: when the agent raises during generation, the stream emits its
pending token frames, then a single error frame carrying the exception
message, and terminates; no assistant message of any kind is persisted for
the turn, while the user message, persisted before generation began,
remains saved. -/
theorem chat_stream_error_no_persist (db : DB) (fs : FS) (req : ChatRequest)
    (chunks : List String) (msg : String) (midU midA : String)
    (tU tU2 tA tA2 : Nat) (d : StreamData)
    (h : chat_stream db fs req (AgentBeh.failure chunks msg) midU midA tU tU2 tA tA2 =
      ChatOutcome.stream d) :
    d.steps = chunks.map (fun c => Step.emit (Event.token c)) ++
      [Step.emit (Event.error msg)] ∧
    sseEvents d.steps = chunks.map Event.token ++ [Event.error msg] ∧
    (sseEvents d.steps).countP Event.isError = 1 ∧
    persistedPairs d.steps = [] ∧
    d.dbFinal = d.dbStart ∧
    d.dbStart.messages = db.messages ++
      [⟨midU, req.session_id, "user", req.message, tU⟩] := by
  obtain ⟨_, _, hsteps, hstart, hfin⟩ := chat_stream_stream_inv db fs req
    (AgentBeh.failure chunks msg) midU midA tU tU2 tA tA2 d h
  have htrace : d.steps = chunks.map (fun c => Step.emit (Event.token c)) ++
      [Step.emit (Event.error msg)] := by
    rw [hsteps, generate_failure_eq]
  have hev : sseEvents d.steps = chunks.map Event.token ++ [Event.error msg] := by
    rw [htrace, token_emits_as_map, sseEvents_emits_append]
    rfl
  refine ⟨htrace, hev, ?_, ?_, ?_, ?_⟩
  · rw [hev, List.countP_append, countP_isError_tokens]
    rfl
  · rw [htrace, token_emits_as_map, persistedPairs_emits_append]
    rfl
  · rw [hfin, generate_failure_eq, token_emits_as_map, applyPersists_emits_append]
    rfl
  · rw [hstart]
    simp [DB.add_message, DB.touch_session]

/-- The outcome of the concrete failing chat stream used as witness. -/
def streamDataE : StreamData :=
  match chat_stream db0 fs0 req0 (AgentBeh.failure ["He"] "boom") "m1" "m2" 10 11 12 13 with
  | ChatOutcome.stream d => d
  | ChatOutcome.httpError _ _ _ => ⟨[], "", [], db0, db0⟩

/-- C6 witness: the concrete stream whose agent raises boom after one
chunk. -/
theorem chat_stream_error_no_persist_witness :
    streamDataE.steps = (["He"].map (fun c => Step.emit (Event.token c))) ++
      [Step.emit (Event.error "boom")] ∧
    sseEvents streamDataE.steps = (["He"].map Event.token) ++ [Event.error "boom"] ∧
    (sseEvents streamDataE.steps).countP Event.isError = 1 ∧
    persistedPairs streamDataE.steps = [] ∧
    streamDataE.dbFinal = streamDataE.dbStart ∧
    streamDataE.dbStart.messages = db0.messages ++ [⟨"m1", "s1", "user", "hello", 10⟩] :=
  chat_stream_error_no_persist db0 fs0 req0 ["He"] "boom" "m1" "m2" 10 11 12 13
    streamDataE rfl

/-- C9: the history handed to the agent is loaded before the incoming user
message is persisted, so it is exactly the session's messages from previous
turns and excludes the message of the current turn. -/
theorem chat_stream_history_prior (db : DB) (fs : FS) (req : ChatRequest)
    (beh : AgentBeh) (midU midA : String) (tU tU2 tA tA2 : Nat) (d : StreamData)
    (h : chat_stream db fs req beh midU midA tU tU2 tA tA2 = ChatOutcome.stream d)
    (hfresh : ∀ m ∈ db.messages, m.id ≠ midU) :
    d.history = db.get_session_messages req.session_id ∧
    (∀ m ∈ d.history, m.id ≠ midU) ∧
    d.dbStart.messages = db.messages ++
      [⟨midU, req.session_id, "user", req.message, tU⟩] := by
  obtain ⟨hhist, _, _, hstart, _⟩ := chat_stream_stream_inv db fs req
    beh midU midA tU tU2 tA tA2 d h
  refine ⟨hhist, ?_, ?_⟩
  · intro m hm
    rw [hhist] at hm
    have hm2 : m ∈ db.messages.filter (fun x => x.sessionId == req.session_id) :=
      ((List.perm_insertionSort messageOlder _).mem_iff).mp hm
    exact hfresh m (List.mem_of_mem_filter hm2)
  · rw [hstart]
    simp [DB.add_message, DB.touch_session]

/-- C9 witness: in the concrete successful stream the history is the empty
prior transcript and the current user message is not part of it. -/
theorem chat_stream_history_prior_witness :
    streamData0.history = db0.get_session_messages "s1" ∧
    (∀ m ∈ streamData0.history, m.id ≠ "m1") ∧
    streamData0.dbStart.messages = db0.messages ++ [⟨"m1", "s1", "user", "hello", 10⟩] :=
  chat_stream_history_prior db0 fs0 req0 (AgentBeh.success ["Hel", "lo"])
    "m1" "m2" 10 11 12 13 streamData0 rfl (by decide)

/-! ## Path and filesystem lemmas for the upload claim -/

theorem splitSlash_ne_nil (cs : List Char) : splitSlash cs ≠ [] := by
  cases cs with
  | nil => simp [splitSlash]
  | cons c rest =>
    simp only [splitSlash]
    split
    · simp
    · split <;> simp

theorem splitSlash_no_slash (cs : List Char) :
    ∀ p ∈ splitSlash cs, '/' ∉ p := by
  induction cs with
  | nil =>
    intro p hp
    simp [splitSlash] at hp
    subst hp
    simp
  | cons c rest ih =>
    intro p hp
    simp only [splitSlash] at hp
    cases hsp : splitSlash rest with
    | nil => exact absurd hsp (splitSlash_ne_nil rest)
    | cons p0 ps =>
      rw [hsp] at hp
      by_cases hc : c = '/'
      · simp only [hc, if_true, ite_true, List.mem_cons] at hp
        rcases hp with hp | hp
        · subst hp; simp
        · exact ih p (by rw [hsp, List.mem_cons]; exact hp)
      · simp only [hc, if_false, ite_false, List.mem_cons] at hp
        rcases hp with hp | hp
        · subst hp
          intro hmem
          rcases List.mem_cons.mp hmem with h | h
          · exact hc h.symm
          · exact ih p0 (by rw [hsp]; exact List.mem_cons_self p0 ps) h
        · exact ih p (by rw [hsp]; exact List.mem_cons_of_mem p0 hp)

theorem splitSlash_of_no_slash (cs : List Char) (h : '/' ∉ cs) :
    splitSlash cs = [cs] := by
  induction cs with
  | nil => rfl
  | cons c rest ih =>
    have hc : c ≠ '/' := fun hh => h (hh ▸ List.mem_cons_self c rest)
    have hr : '/' ∉ rest := fun hh => h (List.mem_cons_of_mem c hh)
    simp only [splitSlash, ih hr]
    simp [hc]

theorem parsePath_mem (s : String) (c : String) (hc : c ∈ parsePath s) :
    c ≠ "" ∧ c ≠ "." ∧ ∀ ch ∈ c.toList, ch ≠ '/' := by
  simp only [parsePath, List.mem_filter, List.mem_map] at hc
  obtain ⟨⟨cs, hcs, hmk⟩, hpred⟩ := hc
  have hpred2 : c ≠ "" ∧ c ≠ "." := by
    simpa [bne_iff_ne] using hpred
  refine ⟨hpred2.1, hpred2.2, ?_⟩
  intro ch hch heq
  have hslash : '/' ∉ cs := splitSlash_no_slash s.toList cs hcs
  have hcl : c.toList = cs := by rw [← hmk]; rfl
  rw [hcl] at hch
  exact hslash (heq ▸ hch)

theorem parsePath_single (s : String) (h1 : ∀ ch ∈ s.toList, ch ≠ '/')
    (h2 : s ≠ "") (h3 : s ≠ ".") : parsePath s = [s] := by
  have hslash : '/' ∉ s.toList := fun hm => h1 '/' hm rfl
  have hmk : String.mk s.toList = s := rfl
  simp only [parsePath, splitSlash_of_no_slash s.toList hslash, List.map_cons,
    List.map_nil, hmk]
  have hcond : (s != "" && s != ".") = true := by simp [h2, h3]
  simp [List.filter, hcond]

theorem mem_of_getLast?_some {α : Type _} {l : List α} {a : α}
    (h : l.getLast? = some a) : a ∈ l := by
  induction l with
  | nil => simp at h
  | cons x xs ih =>
    cases xs with
    | nil =>
      simp at h
      subst h
      exact List.mem_singleton_self x
    | cons y ys =>
      rw [List.getLast?_cons_cons] at h
      exact List.mem_cons_of_mem x (ih h)

theorem pathName_no_slash (s : String) :
    ∀ ch ∈ (pathName s).toList, ch ≠ '/' := by
  cases hg : (parsePath s).getLast? with
  | none =>
    intro ch hch
    simp [pathName, hg] at hch
  | some c =>
    have hpn : pathName s = c := by simp [pathName, hg]
    rw [hpn]
    exact (parsePath_mem s c (mem_of_getLast?_some hg)).2.2

theorem pathName_mem_parsePath (s : String) (h : pathName s ≠ "") :
    pathName s ∈ parsePath s := by
  cases hg : (parsePath s).getLast? with
  | none => exact absurd (by simp [pathName, hg]) h
  | some c =>
    have hpn : pathName s = c := by simp [pathName, hg]
    rw [hpn]
    exact mem_of_getLast?_some hg

theorem normPath_aux (p : List String) (acc : List String)
    (h : ∀ c ∈ p, c ≠ "..") :
    p.foldl (fun acc c => if c = ".." then acc.dropLast else acc ++ [c]) acc =
      acc ++ p := by
  induction p generalizing acc with
  | nil => simp
  | cons c rest ih =>
    have hc : c ≠ ".." := h c (List.mem_cons_self c rest)
    simp only [List.foldl_cons, if_neg hc]
    rw [ih (acc ++ [c]) (fun x hx => h x (List.mem_cons_of_mem c hx))]
    simp

theorem normPath_no_dotdot (p : List String) (h : ∀ c ∈ p, c ≠ "..") :
    normPath p = p := by
  have := normPath_aux p [] h
  simpa [normPath] using this

theorem mkdir_isDir_self (fs fs1 : FS) (p : List String)
    (h : fs.mkdir p = Except.ok fs1) : fs1.isDir (normPath p) = true := by
  simp only [FS.mkdir] at h
  split at h
  next hcond =>
    simp at h
    subst h
    exact hcond
  next hcond =>
    split at h
    · simp at h
    · split at h
      · simp at h
        subst h
        simp [FS.isDir, List.any_append]
      · simp at h

theorem mkdir_isDir_mono (fs fs1 : FS) (p d : List String)
    (h : fs.mkdir p = Except.ok fs1) (hd : fs.isDir d = true) :
    fs1.isDir d = true := by
  simp only [FS.mkdir] at h
  split at h
  · simp at h
    subst h
    exact hd
  · split at h
    · simp at h
    · split at h
      · simp at h
        subst h
        simp only [FS.isDir, List.any_append] at hd ⊢
        simp [hd]
      · simp at h

theorem writeFile_ok_not_isDir (fs fs2 : FS) (p : List String) (node : FNode)
    (h : fs.writeFile p node = Except.ok fs2) :
    fs.isDir (normPath p) = false := by
  simp only [FS.writeFile] at h
  split at h
  · simp at h
  next hcond =>
    simp only [Bool.not_eq_true] at hcond
    exact hcond

theorem writeFile_lookup (fs fs2 : FS) (p : List String) (node : FNode)
    (h : fs.writeFile p node = Except.ok fs2) :
    fs2.lookupFile (normPath p) = some node := by
  simp only [FS.writeFile] at h
  split at h
  · simp at h
  · simp at h
    subst h
    simp only [FS.lookupFile, List.find?_append]
    have hnone : (fs.files.filter (fun e => e.1 != normPath p)).find?
        (fun e => e.1 == normPath p) = none := by
      rw [List.find?_eq_none]
      intro e he
      have hmf := List.mem_filter.mp he
      simpa using hmf.2
    rw [hnone]
    simp

theorem add_session_file_mem (db : DB) (sid fname path fid : String) (now : Nat) :
    ∃ r ∈ (db.add_session_file sid fname path fid now).sessionFiles,
      r.sessionId = sid ∧ r.filename = fname ∧ r.path = path ∧
        r.uploadedAt = now := by
  simp only [DB.add_session_file]
  cases hany : db.sessionFiles.any (fun r => r.sessionId == sid && r.filename == fname) with
  | true =>
    simp only [hany, if_true, ite_true]
    obtain ⟨r0, hr0, hpred⟩ := List.any_eq_true.mp hany
    have hkey : r0.sessionId = sid ∧ r0.filename = fname := by simpa using hpred
    refine ⟨{ r0 with path := path, uploadedAt := now }, ?_, by simp [hkey.1],
      by simp [hkey.2], rfl, rfl⟩
    have himg : ({ r0 with path := path, uploadedAt := now } : SessionFileRow) =
        (fun r => if r.sessionId = sid ∧ r.filename = fname then
          { r with path := path, uploadedAt := now } else r) r0 := by
      simp [hkey.1, hkey.2]
    rw [himg]
    exact List.mem_map_of_mem _ hr0
  | false =>
    simp only [hany, Bool.false_eq_true, if_false, ite_false]
    exact ⟨⟨fid, sid, fname, path, now⟩, List.mem_append_right _ (by simp),
      rfl, rfl, rfl, rfl⟩

/-! ## C3: upload sanitizes the filename to its base name -/

/-- C3: a successful upload stores the uploaded bytes at the session's
upload directory joined with only the base name of the client-supplied
filename: the base name contains no slash, and is neither empty nor the
double dot (either of those makes the OS write raise, so the request cannot
succeed), hence the resolved written path is exactly the uploads root, the
session id and the base name, never escaping the session directory; the
returned size equals the number of bytes written.  The hypotheses say that
the uploads root directory exists and that the session id is one
well-formed path component, which holds of the uuid4 ids the backend
generates. -/
theorem upload_file_sanitizes (db : DB) (fs : FS) (sid key fname : String)
    (content : List Nat) (textOracle : Option String) (fid : String) (now : Nat)
    (resp : UploadResp) (db2 : DB) (fs2 : FS)
    (hUp : fs.isDir ["uploads"] = true)
    (hSid : parsePath sid = [sid])
    (hSidDot : sid ≠ "..")
    (h : upload_file db fs sid key fname content textOracle fid now =
      (Except.ok resp, db2, fs2)) :
    (∀ ch ∈ (pathName fname).toList, ch ≠ '/') ∧
    pathName fname ≠ "" ∧
    pathName fname ≠ ".." ∧
    resp = ⟨pathName fname, content.length, "File uploaded successfully"⟩ ∧
    normPath (["uploads"] ++ parsePath sid ++ parsePath (pathName fname)) =
      ["uploads", sid, pathName fname] ∧
    fs2.lookupFile ["uploads", sid, pathName fname] = some ⟨content, textOracle⟩ ∧
    ∃ r ∈ db2.sessionFiles, r.sessionId = sid ∧ r.filename = pathName fname ∧
      r.path = pathStr (["uploads"] ++ parsePath sid ++ parsePath (pathName fname)) := by
  simp only [upload_file] at h
  cases hv : verify_user db key with
  | error e2 => simp [hv] at h
  | ok user =>
    simp only [hv] at h
    cases hg : db.get_session sid with
    | none => simp [hg] at h
    | some s =>
      simp only [hg] at h
      by_cases hown : s.userId = user.id
      · rw [if_neg (show ¬ s.userId ≠ user.id from fun hne => hne hown)] at h
        cases hmk : fs.mkdir (["uploads"] ++ parsePath sid) with
        | error m =>
          rw [hmk] at h
          simp at h
        | ok fs1 =>
          rw [hmk] at h
          simp only [] at h
          cases hw : fs1.writeFile
              (["uploads"] ++ parsePath sid ++ parsePath (pathName fname))
              ⟨content, textOracle⟩ with
          | error m =>
            rw [hw] at h
            simp at h
          | ok fs3 =>
            rw [hw] at h
            simp only [Prod.mk.injEq, Except.ok.injEq] at h
            obtain ⟨h1, h2, h3⟩ := h
            have hA : ∀ ch ∈ (pathName fname).toList, ch ≠ '/' :=
              pathName_no_slash fname
            have hdir1 : fs1.isDir (normPath (["uploads"] ++ parsePath sid)) = true :=
              mkdir_isDir_self fs fs1 _ hmk
            have hup1 : fs1.isDir ["uploads"] = true :=
              mkdir_isDir_mono fs fs1 _ _ hmk hUp
            have hB : pathName fname ≠ "" := by
              intro hemp
              have hpp : parsePath (pathName fname) = [] := by rw [hemp]; decide
              have hsame : ["uploads"] ++ parsePath sid ++ parsePath (pathName fname) =
                  ["uploads"] ++ parsePath sid := by
                rw [hpp]
                simp
              have hdirw := writeFile_ok_not_isDir fs1 fs3 _ _ hw
              rw [hsame, hdir1] at hdirw
              simp at hdirw
            have hC : pathName fname ≠ ".." := by
              intro hdd
              have hpp : parsePath (pathName fname) = [".."] := by rw [hdd]; decide
              have hnormdd : normPath (["uploads"] ++ parsePath sid ++
                  parsePath (pathName fname)) = ["uploads"] := by
                rw [hpp, hSid]
                simp [normPath, hSidDot]
              have hdirw := writeFile_ok_not_isDir fs1 fs3 _ _ hw
              rw [hnormdd, hup1] at hdirw
              simp at hdirw
            have hmemp := pathName_mem_parsePath fname hB
            have hdot : pathName fname ≠ "." := (parsePath_mem fname _ hmemp).2.1
            have hppS : parsePath (pathName fname) = [pathName fname] :=
              parsePath_single _ hA hB hdot
            have hfull : ["uploads"] ++ parsePath sid ++ parsePath (pathName fname) =
                ["uploads", sid, pathName fname] := by
              simp [hSid, hppS]
            have hcomps : ∀ c ∈ ["uploads", sid, pathName fname], c ≠ ".." := by
              intro c hcm
              rcases List.mem_cons.mp hcm with hh | hcm2
              · subst hh; decide
              rcases List.mem_cons.mp hcm2 with hh | hcm3
              · subst hh; exact hSidDot
              rcases List.mem_cons.mp hcm3 with hh | hcm4
              · subst hh; exact hC
              · simp at hcm4
            have hE : normPath (["uploads"] ++ parsePath sid ++
                parsePath (pathName fname)) = ["uploads", sid, pathName fname] := by
              rw [hfull]
              exact normPath_no_dotdot _ hcomps
            have hF := writeFile_lookup fs1 fs3 _ _ hw
            rw [hE] at hF
            subst h3
            have hG := add_session_file_mem db sid (pathName fname)
              (pathStr (["uploads"] ++ parsePath sid ++ parsePath (pathName fname)))
              fid now
            rw [h2] at hG
            obtain ⟨r, hrmem, p1, p2, p3, _⟩ := hG
            exact ⟨hA, hB, hC, h1.symm, hE, hF, r, hrmem, p1, p2, p3⟩
      · simp [hown] at h

/-- The store after the witness upload. -/
def dbUpW : DB :=
  ⟨[user0], [sess0], [], [⟨"f1", "s1", "passwd", "uploads/s1/passwd", 9⟩]⟩

/-- The filesystem after the witness upload. -/
def fsUpW : FS :=
  ⟨[(["uploads", "s1", "passwd"], ⟨[104, 105], some "hi"⟩)],
   [["uploads"], ["uploads", "s1"]]⟩

/-- C3 witness: uploading a file named with the traversal sequence stores
it under the session directory as just passwd. -/
theorem upload_file_sanitizes_witness :
    (∀ ch ∈ (pathName "../../etc/passwd").toList, ch ≠ '/') ∧
    pathName "../../etc/passwd" ≠ "" ∧
    pathName "../../etc/passwd" ≠ ".." ∧
    (⟨"passwd", 2, "File uploaded successfully"⟩ : UploadResp) =
      ⟨pathName "../../etc/passwd", ([104, 105] : List Nat).length,
        "File uploaded successfully"⟩ ∧
    normPath (["uploads"] ++ parsePath "s1" ++ parsePath (pathName "../../etc/passwd")) =
      ["uploads", "s1", pathName "../../etc/passwd"] ∧
    fsUpW.lookupFile ["uploads", "s1", pathName "../../etc/passwd"] =
      some ⟨[104, 105], some "hi"⟩ ∧
    ∃ r ∈ dbUpW.sessionFiles, r.sessionId = "s1" ∧
      r.filename = pathName "../../etc/passwd" ∧
      r.path = pathStr (["uploads"] ++ parsePath "s1" ++
        parsePath (pathName "../../etc/passwd")) :=
  upload_file_sanitizes db0 fs0 "s1" "key1" "../../etc/passwd" [104, 105]
    (some "hi") "f1" 9 ⟨"passwd", 2, "File uploaded successfully"⟩ dbUpW fsUpW
    (by decide) (by decide) (by decide) rfl

/-! ## C4: add_message touches the session and listings are most-recent-first -/

theorem head_of_sorted_max (l : List Session) (x : Session)
    (hsort : l.Sorted sessionMoreRecent) (hmem : x ∈ l)
    (hmax : ∀ y ∈ l, y ≠ x → y.updatedAt < x.updatedAt) :
    l.head? = some x := by
  cases l with
  | nil => simp at hmem
  | cons hd t =>
    by_cases hx : hd = x
    · simp [hx]
    · exfalso
      have hxt : x ∈ t := by
        rcases List.mem_cons.mp hmem with hh | hh
        · exact absurd hh.symm hx
        · exact hh
      have h1 : sessionMoreRecent hd x := (List.sorted_cons.mp hsort).1 x hxt
      have h2 : hd.updatedAt < x.updatedAt :=
        hmax hd (List.mem_cons_self hd t) hx
      simp only [sessionMoreRecent] at h1
      omega

/-- C4: every add_message call sets the session's updated_at to the touch
instant, get_user_sessions is sorted most-recently-updated first, and after
sending a message to a session at an instant later than every other session
of the user, that session heads the subsequent listing.  The Nodup
hypothesis is the sessions primary key; the freshness hypothesis says the
touch instant is later than the other sessions' updates, true of a wall
clock. -/
theorem add_message_touch_and_recency (db : DB) (sid role content mid : String)
    (tIns tT : Nat) (uid : String) (s : Session)
    (hids : (db.sessions.map (fun s => s.id)).Nodup)
    (hs : db.get_session sid = some s)
    (hmine : s.userId = uid)
    (hfresh : ∀ s2 ∈ db.sessions, s2.userId = uid → s2.id ≠ sid →
      s2.updatedAt < tT) :
    (db.add_message sid role content mid tIns tT).get_session sid =
      some { s with updatedAt := tT } ∧
    ((db.add_message sid role content mid tIns tT).get_user_sessions uid).Sorted
      sessionMoreRecent ∧
    ((db.add_message sid role content mid tIns tT).get_user_sessions uid).head? =
      some { s with updatedAt := tT } := by
  have hs' : db.sessions.find? (fun x => x.id == sid) = some s := hs
  have hsid : s.id = sid := by simpa using List.find?_some hs'
  have hmem : s ∈ db.sessions := List.mem_of_find?_eq_some hs'
  have hsess : (db.add_message sid role content mid tIns tT).sessions =
      db.sessions.map
        (fun x => if x.id = sid then { x with updatedAt := tT } else x) := by
    simp [DB.add_message, DB.touch_session]
  have hcomp : ((fun x : Session => x.id == sid) ∘
      (fun x : Session => if x.id = sid then { x with updatedAt := tT } else x)) =
      (fun x : Session => x.id == sid) := by
    funext x
    by_cases hx : x.id = sid
    · simp [hx]
    · simp [hx]
  have hc1 : (db.add_message sid role content mid tIns tT).get_session sid =
      some { s with updatedAt := tT } := by
    show ((db.add_message sid role content mid tIns tT).sessions).find?
      (fun x => x.id == sid) = some { s with updatedAt := tT }
    rw [hsess, List.find?_map, hcomp, hs']
    simp [hsid]
  have htch : ({ s with updatedAt := tT } : Session) ∈
      (db.add_message sid role content mid tIns tT).sessions := by
    rw [hsess]
    have himg : ({ s with updatedAt := tT } : Session) =
        (fun x : Session => if x.id = sid then { x with updatedAt := tT } else x) s := by
      simp [hsid]
    rw [himg]
    exact List.mem_map_of_mem _ hmem
  refine ⟨hc1, List.sorted_insertionSort sessionMoreRecent _, ?_⟩
  apply head_of_sorted_max _ _ (List.sorted_insertionSort sessionMoreRecent _)
  · rw [(List.perm_insertionSort sessionMoreRecent _).mem_iff, List.mem_filter]
    refine ⟨htch, ?_⟩
    simp [hmine]
  · intro y hy hyne
    have hy2 : y ∈ ((db.add_message sid role content mid tIns tT).sessions).filter
        (fun x => x.userId == uid) :=
      (List.perm_insertionSort sessionMoreRecent _).mem_iff.mp hy
    have hy3 := List.mem_filter.mp hy2
    have hyuid : y.userId = uid := by simpa using hy3.2
    rw [hsess] at hy3
    obtain ⟨z, hz, hzy⟩ := List.mem_map.mp hy3.1
    by_cases hzid : z.id = sid
    · exfalso
      have hzs : z = s := List.inj_on_of_nodup_map hids hz hmem (by rw [hzid, hsid])
      apply hyne
      rw [← hzy, hzs]
      simp [hsid]
    · have hyz : y = z := by rw [← hzy]; simp [hzid]
      have : z.updatedAt < tT := hfresh z hz (by rw [← hyz]; exact hyuid) hzid
      rw [hyz]
      simpa using this

/-- A second session for alice, more recently updated than sess0. -/
def sessA : Session := ⟨"s3", "u1", "C", 5, 5⟩

/-- Store with two sessions of alice for the recency witness. -/
def db4W : DB := ⟨[user0], [sessA, sess0], [], []⟩

/-- C4 witness: messaging the older session s1 at instant 9 moves it to the
front of the listing. -/
theorem add_message_touch_and_recency_witness :
    (db4W.add_message "s1" "user" "hi" "m9" 8 9).get_session "s1" =
      some { sess0 with updatedAt := 9 } ∧
    ((db4W.add_message "s1" "user" "hi" "m9" 8 9).get_user_sessions "u1").Sorted
      sessionMoreRecent ∧
    ((db4W.add_message "s1" "user" "hi" "m9" 8 9).get_user_sessions "u1").head? =
      some { sess0 with updatedAt := 9 } :=
  add_message_touch_and_recency db4W "s1" "user" "hi" "m9" 8 9 "u1" sess0
    (by decide) (by decide) (by decide) (by decide)

/-! ## C5: add_session_file is an upsert keyed by session and filename -/

/-- The UNIQUE(session_id, filename) constraint of the session_files
table, as a pairwise distinctness invariant. -/
def FilesUnique (db : DB) : Prop :=
  db.sessionFiles.Pairwise
    (fun a b => ¬(a.sessionId = b.sessionId ∧ a.filename = b.filename))

/-- The arguments of one add_session_file call. -/
structure FileCall where
  sid : String
  fname : String
  path : String
  fid : String
  now : Nat

/-- A sequence of add_session_file calls applied in order. -/
def applyFileCalls (db : DB) (calls : List FileCall) : DB :=
  calls.foldl (fun acc c => acc.add_session_file c.sid c.fname c.path c.fid c.now) db

theorem add_session_file_keeps_unique (db : DB) (sid fname path fid : String)
    (now : Nat) (h : FilesUnique db) :
    FilesUnique (db.add_session_file sid fname path fid now) := by
  simp only [FilesUnique] at h ⊢
  simp only [DB.add_session_file]
  cases hany : db.sessionFiles.any
      (fun r => r.sessionId == sid && r.filename == fname) with
  | true =>
    simp only [hany, if_true, ite_true]
    rw [List.pairwise_map]
    have hkeys : ∀ x : SessionFileRow,
        ((if x.sessionId = sid ∧ x.filename = fname then
          { x with path := path, uploadedAt := now } else x) : SessionFileRow).sessionId =
          x.sessionId ∧
        ((if x.sessionId = sid ∧ x.filename = fname then
          { x with path := path, uploadedAt := now } else x) : SessionFileRow).filename =
          x.filename := by
      intro x
      by_cases hx : x.sessionId = sid ∧ x.filename = fname
      · simp [hx]
      · simp [hx]
    apply h.imp
    intro a b hab hcon
    apply hab
    rw [(hkeys a).1, (hkeys a).2, (hkeys b).1, (hkeys b).2] at hcon
    exact hcon
  | false =>
    simp only [hany, Bool.false_eq_true, if_false, ite_false]
    rw [List.pairwise_append]
    refine ⟨h, List.pairwise_singleton _ _, ?_⟩
    intro a ha b hb
    simp only [List.mem_singleton] at hb
    subst hb
    intro hcon
    have := List.any_eq_false.mp hany a ha
    simp at this
    exact absurd hcon.2 (this hcon.1)

theorem countP_le_one_of_pairwise (l : List SessionFileRow)
    (p : SessionFileRow → Bool)
    (hp : ∀ a b, p a = true → p b = true →
      a.sessionId = b.sessionId ∧ a.filename = b.filename)
    (h : l.Pairwise
      (fun a b => ¬(a.sessionId = b.sessionId ∧ a.filename = b.filename))) :
    l.countP p ≤ 1 := by
  induction l with
  | nil => simp
  | cons a t ih =>
    rw [List.countP_cons]
    rcases List.pairwise_cons.mp h with ⟨ha, ht⟩
    by_cases hpa : p a = true
    · have hzero : t.countP p = 0 := by
        rw [List.countP_eq_zero]
        intro b hb hpb
        exact ha b hb (hp a b hpa hpb)
      simp [hzero, hpa]
    · have hfa : p a = false := by simpa using hpa
      have := ih ht
      simp [hfa]
      omega

theorem get_session_files_at_most_one (db : DB) (h : FilesUnique db)
    (sid name : String) :
    (db.get_session_files sid).countP (fun r => r.filename == name) ≤ 1 := by
  show ((db.sessionFiles.filter (fun f => f.sessionId == sid)).insertionSort
    fileOlder).countP (fun r => r.filename == name) ≤ 1
  rw [(List.perm_insertionSort fileOlder _).countP_eq, List.countP_filter]
  apply countP_le_one_of_pairwise _ _ ?_ h
  intro a b hpa hpb
  simp only [Bool.and_eq_true, beq_iff_eq] at hpa hpb
  exact ⟨hpa.2.trans hpb.2.symm, hpa.1.trans hpb.1.symm⟩

theorem add_session_file_last_write (db : DB) (sid fname path fid : String)
    (now : Nat) :
    ∃ r, ((db.add_session_file sid fname path fid now).sessionFiles.find?
        (fun r => r.sessionId == sid && r.filename == fname)) = some r ∧
      r.path = path ∧ r.uploadedAt = now := by
  simp only [DB.add_session_file]
  cases hany : db.sessionFiles.any
      (fun r => r.sessionId == sid && r.filename == fname) with
  | true =>
    simp only [hany, if_true, ite_true]
    have hcomp : ((fun r : SessionFileRow => r.sessionId == sid && r.filename == fname) ∘
        (fun r : SessionFileRow => if r.sessionId = sid ∧ r.filename = fname then
          { r with path := path, uploadedAt := now } else r)) =
        (fun r : SessionFileRow => r.sessionId == sid && r.filename == fname) := by
      funext x
      by_cases hx : x.sessionId = sid ∧ x.filename = fname
      · simp [hx]
      · simp only [Function.comp_apply, if_neg hx]
    rw [List.find?_map, hcomp]
    have hsome : (db.sessionFiles.find?
        (fun r => r.sessionId == sid && r.filename == fname)).isSome := by
      rw [List.find?_isSome]
      obtain ⟨x, hx, hpx⟩ := List.any_eq_true.mp hany
      exact ⟨x, hx, hpx⟩
    obtain ⟨x0, hx0⟩ := Option.isSome_iff_exists.mp hsome
    have hkey : x0.sessionId = sid ∧ x0.filename = fname := by
      simpa using List.find?_some hx0
    rw [hx0]
    exact ⟨{ x0 with path := path, uploadedAt := now }, by simp [hkey], rfl, rfl⟩
  | false =>
    simp only [hany, Bool.false_eq_true, if_false, ite_false]
    rw [List.find?_append]
    have hnone : db.sessionFiles.find?
        (fun r => r.sessionId == sid && r.filename == fname) = none := by
      rw [List.find?_eq_none]
      exact List.any_eq_false.mp hany
    rw [hnone]
    exact ⟨⟨fid, sid, fname, path, now⟩, by simp, rfl, rfl⟩

/-- C5: add_session_file is an upsert keyed by session and filename: from a
store satisfying the unique key constraint, any sequence of calls preserves
it, get_session_files then lists at most one record per filename, and after
a sequence whose last call targets a given key, the record found under that
key carries the last call's path and upload instant (last write wins, no
duplicate rows, no versioning). -/
theorem add_session_file_upsert (db : DB) (calls : List FileCall) (c : FileCall)
    (sid name : String) (h : FilesUnique db) :
    FilesUnique (applyFileCalls db calls) ∧
    ((applyFileCalls db calls).get_session_files sid).countP
      (fun r => r.filename == name) ≤ 1 ∧
    ∃ r, ((applyFileCalls db (calls ++ [c])).sessionFiles.find?
        (fun r => r.sessionId == c.sid && r.filename == c.fname)) = some r ∧
      r.path = c.path ∧ r.uploadedAt = c.now := by
  have hpres : ∀ cs : List FileCall, ∀ d : DB, FilesUnique d →
      FilesUnique (applyFileCalls d cs) := by
    intro cs
    induction cs with
    | nil => intro d hd; exact hd
    | cons c0 t ih =>
      intro d hd
      exact ih _ (add_session_file_keeps_unique d c0.sid c0.fname c0.path c0.fid c0.now hd)
  refine ⟨hpres calls db h,
    get_session_files_at_most_one _ (hpres calls db h) sid name, ?_⟩
  have happ : applyFileCalls db (calls ++ [c]) =
      (applyFileCalls db calls).add_session_file c.sid c.fname c.path c.fid c.now := by
    simp [applyFileCalls, List.foldl_append]
  rw [happ]
  exact add_session_file_last_write _ c.sid c.fname c.path c.fid c.now

/-- C5 witness: two calls with the same key, the second with path p2 at
instant 2, end with a single record carrying path p2. -/
theorem add_session_file_upsert_witness :
    FilesUnique (applyFileCalls db0 [⟨"s1", "a.txt", "p1", "f1", 1⟩]) ∧
    ((applyFileCalls db0 [⟨"s1", "a.txt", "p1", "f1", 1⟩]).get_session_files "s1").countP
      (fun r => r.filename == "a.txt") ≤ 1 ∧
    ∃ r, ((applyFileCalls db0 ([⟨"s1", "a.txt", "p1", "f1", 1⟩] ++
        [⟨"s1", "a.txt", "p2", "f2", 2⟩])).sessionFiles.find?
        (fun r => r.sessionId == "s1" && r.filename == "a.txt")) = some r ∧
      r.path = "p2" ∧ r.uploadedAt = 2 :=
  add_session_file_upsert db0 [⟨"s1", "a.txt", "p1", "f1", 1⟩]
    ⟨"s1", "a.txt", "p2", "f2", 2⟩ "s1" "a.txt" List.Pairwise.nil

/-! ## C7: file context assembly -/

theorem buildContext_append_single (fs : FS) (files : List SessionFileRow)
    (f : SessionFileRow) :
    buildContext fs (files ++ [f]) = buildContext fs files ++
      (match fs.lookupFile (normPath (parsePath f.path)) with
       | none => ""
       | some node =>
         if node.bytes.length < 500000 then
           match node.readText with
           | some txt => fileLabel f.filename ++ txt
           | none => fileLabel f.filename
         else "") := by
  simp only [buildContext, List.foldl_append, List.foldl_cons, List.foldl_nil]
  cases hlook : fs.lookupFile (normPath (parsePath f.path)) with
  | none => simp [hlook]
  | some node =>
    simp only [hlook]
    by_cases hlen : node.bytes.length < 500000
    · simp only [hlen, if_true, ite_true]
      cases hrt : node.readText with
      | none => simp
      | some txt => simp [String.append_assoc]
    · simp [hlen]

/-- C7 (amended): when assembling the chat file context, a session file
whose path does not exist or whose on-disk size is at least 500000 bytes
contributes nothing; a file passing both checks whose read succeeds
contributes its label line followed by its decoded text; a file passing
both checks whose read then raises contributes only its label line (the
source appends the label before attempting the read); and every file
record, included or skipped, remains listed by get_session_files. -/
theorem buildContext_file_handling (fs : FS) (files : List SessionFileRow)
    (f : SessionFileRow) (db : DB) (sid : String)
    (hmem : f ∈ db.sessionFiles) (hsid : f.sessionId = sid) :
    (fs.lookupFile (normPath (parsePath f.path)) = none →
      buildContext fs (files ++ [f]) = buildContext fs files) ∧
    (∀ node, fs.lookupFile (normPath (parsePath f.path)) = some node →
      500000 ≤ node.bytes.length →
      buildContext fs (files ++ [f]) = buildContext fs files) ∧
    (∀ node txt, fs.lookupFile (normPath (parsePath f.path)) = some node →
      node.bytes.length < 500000 → node.readText = some txt →
      buildContext fs (files ++ [f]) =
        buildContext fs files ++ fileLabel f.filename ++ txt) ∧
    (∀ node, fs.lookupFile (normPath (parsePath f.path)) = some node →
      node.bytes.length < 500000 → node.readText = none →
      buildContext fs (files ++ [f]) =
        buildContext fs files ++ fileLabel f.filename) ∧
    f ∈ db.get_session_files sid := by
  refine ⟨?_, ?_, ?_, ?_, ?_⟩
  · intro hlook
    rw [buildContext_append_single, hlook]
    simp
  · intro node hlook hlen
    rw [buildContext_append_single, hlook]
    have : ¬ node.bytes.length < 500000 := by omega
    simp [this]
  · intro node txt hlook hlen hrt
    rw [buildContext_append_single, hlook]
    simp [hlen, hrt, String.append_assoc]
  · intro node hlook hlen hrt
    rw [buildContext_append_single, hlook]
    simp [hlen, hrt]
  · show f ∈ (db.sessionFiles.filter (fun x => x.sessionId == sid)).insertionSort fileOlder
    rw [(List.perm_insertionSort fileOlder _).mem_iff, List.mem_filter]
    exact ⟨hmem, by simp [hsid]⟩

/-- A file record whose on-disk entry exists, is small, and cannot be
read. -/
def fileRowC7 : SessionFileRow := ⟨"f7", "s1", "notes.txt", "uploads/s1/notes.txt", 3⟩

/-- A filesystem where that path exists with three bytes but the read
raises. -/
def fsC7 : FS :=
  ⟨[(["uploads", "s1", "notes.txt"], ⟨[0, 1, 2], none⟩)], [["uploads"]]⟩

/-- Store holding the record of that file. -/
def dbC7 : DB := ⟨[user0], [sess0], [], [fileRowC7]⟩

/-- C7 counterexample: the claim says a file that is oversized, missing or
unreadable contributes nothing to the context blob; for this unreadable
file (it exists, its three bytes pass the size check, its read raises) the
assembled context is the dangling label line, not the empty string the
claim requires, because the code appends the label before the read. -/
theorem buildContext_unreadable_contributes_label :
    buildContext fsC7 [fileRowC7] = "\n\n--- File: notes.txt ---\n" ∧
    buildContext fsC7 [fileRowC7] ≠ "" := by
  constructor
  · rfl
  · decide

/-- C7 witness: the amended per-file contribution rules applied to the
concrete unreadable file. -/
theorem buildContext_file_handling_witness :
    (fsC7.lookupFile (normPath (parsePath fileRowC7.path)) = none →
      buildContext fsC7 ([] ++ [fileRowC7]) = buildContext fsC7 []) ∧
    (∀ node, fsC7.lookupFile (normPath (parsePath fileRowC7.path)) = some node →
      500000 ≤ node.bytes.length →
      buildContext fsC7 ([] ++ [fileRowC7]) = buildContext fsC7 []) ∧
    (∀ node txt, fsC7.lookupFile (normPath (parsePath fileRowC7.path)) = some node →
      node.bytes.length < 500000 → node.readText = some txt →
      buildContext fsC7 ([] ++ [fileRowC7]) =
        buildContext fsC7 [] ++ fileLabel fileRowC7.filename ++ txt) ∧
    (∀ node, fsC7.lookupFile (normPath (parsePath fileRowC7.path)) = some node →
      node.bytes.length < 500000 → node.readText = none →
      buildContext fsC7 ([] ++ [fileRowC7]) =
        buildContext fsC7 [] ++ fileLabel fileRowC7.filename) ∧
    fileRowC7 ∈ dbC7.get_session_files "s1" :=
  buildContext_file_handling fsC7 [] fileRowC7 dbC7 "s1" (by decide) rfl
